import Mathlib

/-!
Verification of the LinkedIn-network MCP server (src/server.py,
src/export_csv.py, src/simple_export.py) against its specification.

The Python source is shallowly embedded: pure helpers become Lean
functions, the database is an oracle parameter (an `Except`-valued fetch
result), Python exceptions are `Except.error`, and `try/except` blocks
are explicit matches on the `Except` value.  Library collaborators
(`json.loads`/`json.dumps`, the `csv` module, `contextvars`) are modelled
by executable Lean functions that follow the library's documented
behaviour on the value space this program uses (strings, and JSON built
from null/bool/int/str/array/object); number lexemes are kept as strings
and the printer's string escaping covers the quote, backslash, newline,
tab and carriage-return escapes.
-/

/-! ## Python string primitives -/

/-- Whitespace for Python `str.strip` / `str.split()` (space, tab, newline,
carriage return, vertical tab, form feed). -/
def pyIsSpace (c : Char) : Bool :=
  c = ' ' || c = '\t' || c = '\n' || c = '\r' || c = Char.ofNat 11 || c = Char.ofNat 12

/-- Python `s.strip()`. -/
def pyStrip (s : String) : String :=
  String.mk (((s.data.dropWhile pyIsSpace).reverse.dropWhile pyIsSpace).reverse)

/-- Python `s.split()` (split on whitespace runs, no empty tokens). -/
def pySplitWs (s : String) : List String :=
  ((s.data.splitOnP pyIsSpace).map String.mk).filter (· ≠ "")

/-- ASCII lower-casing of one character (Python `str.lower` and Postgres
`lower` restricted to ASCII, which is what the data model uses). -/
def lowerChar (c : Char) : Char :=
  match c with
  | 'A' => 'a' | 'B' => 'b' | 'C' => 'c' | 'D' => 'd' | 'E' => 'e' | 'F' => 'f'
  | 'G' => 'g' | 'H' => 'h' | 'I' => 'i' | 'J' => 'j' | 'K' => 'k' | 'L' => 'l'
  | 'M' => 'm' | 'N' => 'n' | 'O' => 'o' | 'P' => 'p' | 'Q' => 'q' | 'R' => 'r'
  | 'S' => 's' | 'T' => 't' | 'U' => 'u' | 'V' => 'v' | 'W' => 'w' | 'X' => 'x'
  | 'Y' => 'y' | 'Z' => 'z'
  | c => c

/-- Python `s.lower()`. -/
def pyLowerStr (s : String) : String := String.mk (s.data.map lowerChar)

/-- Python `a or b` on `str | None` values: `a` wins unless it is `None`
or the empty string (falsy). -/
def pyOrO (a b : Option String) : Option String :=
  match a with
  | some s => if s = "" then b else some s
  | none => b

/-- Python truthiness of a `str | None`. -/
def pyTruthyO (a : Option String) : Bool :=
  match a with
  | some s => s ≠ ""
  | none => false

/-- Python `s.startswith(p)`. -/
def pyStartsWith (s p : String) : Bool := p.data.isPrefixOf s.data

/-- Python `s.endswith(p)`. -/
def pyEndsWith (s p : String) : Bool := p.data.reverse.isPrefixOf s.data.reverse

/-- Python `s.replace(c, r)` for a one-character pattern. -/
def pyReplaceChar (c : Char) (repl : List Char) (s : String) : String :=
  String.mk (s.data.flatMap fun d => if d = c then repl else [d])

/-- Python `s.split(sep)` over characters for a non-empty separator, with
a fuel bound for structural recursion (every step consumes input). -/
def pySplitF : Nat → List Char → List Char → List (List Char)
  | 0, _, cs => [cs]
  | f + 1, sep, cs =>
    match cs with
    | [] => [[]]
    | c :: rest =>
      if sep ≠ [] ∧ sep.isPrefixOf (c :: rest) then
        [] :: pySplitF f sep ((c :: rest).drop sep.length)
      else
        match pySplitF f sep rest with
        | [] => [[c]]
        | t :: ts => (c :: t) :: ts

/-- Python `s.split(sep)` for a non-empty separator (keeps empty pieces). -/
def pySplit (s sep : String) : List String :=
  (pySplitF (s.length + 1) sep.data s.data).map String.mk

/-! ## JSON values (the value space of `json.loads` on this data) -/

/-- A parsed JSON value.  Numbers keep their source lexeme, which is all
this program ever does with them (it only stringifies numbers). -/
inductive Json where
  | null : Json
  | bool (b : Bool) : Json
  | num (lexeme : String) : Json
  | str (s : String) : Json
  | arr (items : List Json) : Json
  | obj (fields : List (String × Json)) : Json

/-- Lookup in a JSON object, last binding wins (as in a Python dict built
by `json.loads`, where a repeated key keeps the last value). -/
def jsonGet (fields : List (String × Json)) (k : String) : Option Json :=
  ((fields.filter (fun p => p.1 = k)).getLast?).map (·.2)

/-! ### Parsing (`json.loads`) -/

def jsonWs (c : Char) : Bool :=
  c = ' ' || c = '\t' || c = '\n' || c = '\r'

def skipWs (cs : List Char) : List Char := cs.dropWhile jsonWs

def hexVal (c : Char) : Option Nat :=
  if '0' ≤ c ∧ c ≤ '9' then some (c.toNat - '0'.toNat)
  else if 'a' ≤ c ∧ c ≤ 'f' then some (c.toNat - 'a'.toNat + 10)
  else if 'A' ≤ c ∧ c ≤ 'F' then some (c.toNat - 'A'.toNat + 10)
  else none

def hex4 (a b c d : Char) : Option Nat := do
  let x ← hexVal a; let y ← hexVal b; let z ← hexVal c; let w ← hexVal d
  pure (((x * 16 + y) * 16 + z) * 16 + w)

/-- Parse the body of a JSON string after the opening quote: the decoded
characters and the remaining input after the closing quote. -/
def parseStrBody : List Char → Option (List Char × List Char)
  | [] => none
  | '"' :: rest => some ([], rest)
  | '\\' :: '"' :: rest => (parseStrBody rest).map fun p => ('"' :: p.1, p.2)
  | '\\' :: '\\' :: rest => (parseStrBody rest).map fun p => ('\\' :: p.1, p.2)
  | '\\' :: '/' :: rest => (parseStrBody rest).map fun p => ('/' :: p.1, p.2)
  | '\\' :: 'n' :: rest => (parseStrBody rest).map fun p => ('\n' :: p.1, p.2)
  | '\\' :: 't' :: rest => (parseStrBody rest).map fun p => ('\t' :: p.1, p.2)
  | '\\' :: 'r' :: rest => (parseStrBody rest).map fun p => ('\r' :: p.1, p.2)
  | '\\' :: 'b' :: rest => (parseStrBody rest).map fun p => (Char.ofNat 8 :: p.1, p.2)
  | '\\' :: 'f' :: rest => (parseStrBody rest).map fun p => (Char.ofNat 12 :: p.1, p.2)
  | '\\' :: 'u' :: a :: b :: c :: d :: rest =>
      (match hex4 a b c d with
       | some n => (parseStrBody rest).map fun p => (Char.ofNat n :: p.1, p.2)
       | none => none)
  | '\\' :: _ => none
  | c :: rest => (parseStrBody rest).map fun p => (c :: p.1, p.2)

def numChar (c : Char) : Bool :=
  ('0' ≤ c ∧ c ≤ '9') || c = '-' || c = '+' || c = '.' || c = 'e' || c = 'E'

/-- Lex a JSON number: a maximal run of number characters that starts with
a digit or a minus sign and contains a digit. -/
def parseNum (cs : List Char) : Option (Json × List Char) :=
  let lex := cs.takeWhile numChar
  let rest := cs.dropWhile numChar
  match lex with
  | [] => none
  | c :: _ =>
      if (c.isDigit || c = '-') && lex.any Char.isDigit then
        some (.num (String.mk lex), rest)
      else none

mutual

/-- One JSON value and the rest of the input; `fuel` bounds recursion
depth (the caller supplies more fuel than the input length consumes). -/
def parseValue : Nat → List Char → Option (Json × List Char)
  | 0, _ => none
  | fuel + 1, cs =>
    match skipWs cs with
    | [] => none
    | c :: rest =>
      if c = '"' then
        (parseStrBody rest).map fun p => (.str (String.mk p.1), p.2)
      else if c = '[' then
        match skipWs rest with
        | ']' :: rest2 => some (.arr [], rest2)
        | cs2 => (parseItems fuel cs2).map fun p => (.arr p.1, p.2)
      else if c = '{' then
        match skipWs rest with
        | '}' :: rest2 => some (.obj [], rest2)
        | cs2 => (parseFields fuel cs2).map fun p => (.obj p.1, p.2)
      else
        match c :: rest with
        | 't' :: 'r' :: 'u' :: 'e' :: r => some (.bool true, r)
        | 'f' :: 'a' :: 'l' :: 's' :: 'e' :: r => some (.bool false, r)
        | 'n' :: 'u' :: 'l' :: 'l' :: r => some (.null, r)
        | cs2 => parseNum cs2

/-- Comma-separated values up to the closing bracket. -/
def parseItems : Nat → List Char → Option (List Json × List Char)
  | 0, _ => none
  | fuel + 1, cs => do
    let (v, rest) ← parseValue fuel cs
    match skipWs rest with
    | ',' :: rest2 => (parseItems fuel rest2).map fun p => (v :: p.1, p.2)
    | ']' :: rest2 => some ([v], rest2)
    | _ => none

/-- Comma-separated `"key": value` pairs up to the closing brace. -/
def parseFields : Nat → List Char → Option (List (String × Json) × List Char)
  | 0, _ => none
  | fuel + 1, cs =>
    match skipWs cs with
    | '"' :: rest => do
      let (k, rest2) ← parseStrBody rest
      match skipWs rest2 with
      | ':' :: rest3 => do
        let (v, rest4) ← parseValue fuel rest3
        match skipWs rest4 with
        | ',' :: rest5 =>
            (parseFields fuel rest5).map fun p => ((String.mk k, v) :: p.1, p.2)
        | '}' :: rest5 => some ([(String.mk k, v)], rest5)
        | _ => none
      | _ => none
    | _ => none

end

/-- Python `json.loads`: parse one value, requiring only whitespace after
it; `none` models the `JSONDecodeError` the call raises otherwise. -/
def json_loads (s : String) : Option Json :=
  match parseValue (3 * s.length + 3) s.data with
  | some (v, rest) => if skipWs rest = [] then some v else none
  | none => none

/-- `json.loads` as a fallible step (raises `JSONDecodeError`). -/
def json_loadsE (s : String) : Except String Json :=
  match json_loads s with
  | some v => .ok v
  | none => .error "json.decoder.JSONDecodeError"

/-! ### Printing (`json.dumps`, and Python `str`/`repr` of parsed data) -/

def escapeJsonChar (c : Char) : List Char :=
  if c = '"' then ['\\', '"']
  else if c = '\\' then ['\\', '\\']
  else if c = '\n' then ['\\', 'n']
  else if c = '\t' then ['\\', 't']
  else if c = '\r' then ['\\', 'r']
  else [c]

def escapeJson (cs : List Char) : List Char := cs.flatMap escapeJsonChar

/-- `json.dumps` of a string value. -/
def dumpString (s : String) : String :=
  "\"" ++ String.mk (escapeJson s.data) ++ "\""

mutual

/-- Python `json.dumps(v)` with the default separators `", "` / `": "`. -/
def dumpJson : Json → String
  | .null => "null"
  | .bool true => "true"
  | .bool false => "false"
  | .num lex => lex
  | .str s => dumpString s
  | .arr xs => "[" ++ String.intercalate ", " (dumpList xs) ++ "]"
  | .obj fs => "\x7b" ++ String.intercalate ", " (dumpFields fs) ++ "\x7d"

def dumpList : List Json → List String
  | [] => []
  | x :: xs => dumpJson x :: dumpList xs

def dumpFields : List (String × Json) → List String
  | [] => []
  | (k, v) :: fs => (dumpString k ++ ": " ++ dumpJson v) :: dumpFields fs

end

def indentOf (level : Nat) : String := String.mk (List.replicate (2 * level) ' ')

mutual

/-- Python `json.dumps(v, indent=2)`. -/
def dumpJsonInd (level : Nat) : Json → String
  | .null => "null"
  | .bool true => "true"
  | .bool false => "false"
  | .num lex => lex
  | .str s => dumpString s
  | .arr [] => "[]"
  | .arr (x :: xs) =>
      "[\n" ++ String.intercalate ",\n" (dumpListInd (level + 1) (x :: xs)) ++
      "\n" ++ indentOf level ++ "]"
  | .obj [] => "{}"
  | .obj (f :: fs) =>
      "\x7b\n" ++ String.intercalate ",\n" (dumpFieldsInd (level + 1) (f :: fs)) ++
      "\n" ++ indentOf level ++ "\x7d"

def dumpListInd (level : Nat) : List Json → List String
  | [] => []
  | x :: xs => (indentOf level ++ dumpJsonInd level x) :: dumpListInd level xs

def dumpFieldsInd (level : Nat) : List (String × Json) → List String
  | [] => []
  | (k, v) :: fs =>
      (indentOf level ++ dumpString k ++ ": " ++ dumpJsonInd level v) ::
      dumpFieldsInd level fs

end

/-- Python `repr` of a string (single-quoted; the simple single-quote form,
escaping backslash and the quote, which covers this program's data). -/
def pyReprStr (s : String) : String :=
  "'" ++ String.mk (s.data.flatMap fun c =>
    if c = '\\' then ['\\', '\\']
    else if c = Char.ofNat 39 then ['\\', Char.ofNat 39]
    else if c = '\n' then ['\\', 'n']
    else if c = '\t' then ['\\', 't']
    else if c = '\r' then ['\\', 'r']
    else [c]) ++ "'"

mutual

/-- Python `str(v)` of a value decoded by `json.loads`. -/
def pyStr : Json → String
  | .null => "None"
  | .bool true => "True"
  | .bool false => "False"
  | .num lex => lex
  | .str s => s
  | .arr xs => "[" ++ String.intercalate ", " (pyReprList xs) ++ "]"
  | .obj fs => "\x7b" ++ String.intercalate ", " (pyReprFields fs) ++ "\x7d"

/-- Python `repr(v)` of a value decoded by `json.loads`. -/
def pyRepr : Json → String
  | .null => "None"
  | .bool true => "True"
  | .bool false => "False"
  | .num lex => lex
  | .str s => pyReprStr s
  | .arr xs => "[" ++ String.intercalate ", " (pyReprList xs) ++ "]"
  | .obj fs => "\x7b" ++ String.intercalate ", " (pyReprFields fs) ++ "\x7d"

def pyReprList : List Json → List String
  | [] => []
  | x :: xs => pyRepr x :: pyReprList xs

def pyReprFields : List (String × Json) → List String
  | [] => []
  | (k, v) :: fs => (pyReprStr k ++ ": " ++ pyRepr v) :: pyReprFields fs

end

/-- Python truthiness of a value decoded by `json.loads` (`0`, `0.0`,
`""`, `[]`, `{}`, `None`, `False` are falsy). -/
def pyTruthy : Json → Bool
  | .null => false
  | .bool b => b
  | .num lex => lex.data.any fun c => '1' ≤ c ∧ c ≤ '9'
  | .str s => s ≠ ""
  | .arr xs => !xs.isEmpty
  | .obj fs => !fs.isEmpty

/-! ## The field normalizer of `export_network_table` (src/server.py 273-297, 441-475) -/

/-- `format_cell` (src/server.py 273-282): collapse whitespace and
truncate with an ellipsis marker. -/
def format_cell (text : String) (max_length : Nat) : String :=
  if text = "" then ""
  else
    let t := String.intercalate " " (pySplitWs (pyStrip text))
    if t.length > max_length then t.take (max_length - 3) ++ "..." else t

/-- `row.get(col, '') or ''`: a missing/NULL or empty value becomes `""`. -/
def optText (v : Option String) : String := v.getD ""

/-- `extract_company_name` (src/server.py 284-297). -/
def extract_company_name (company_text : Option String) : String :=
  match company_text with
  | none => ""
  | some s0 =>
    if s0 = "" then ""
    else
      let t := pyStrip s0
      let t :=
        if (pySplit t " at ").length ≥ 2 then
          pyStrip ((pySplit ((pySplit t " at ").getD 1 "") " (").getD 0 "")
        else if t.data.contains '|' then pyStrip ((pySplit t "|").getD 0 "")
        else if t.data.contains '(' then pyStrip ((pySplit t "(").getD 0 "")
        else t
      format_cell t 40

/-- `s.get('title', s.get('name', s.get('skill', s)))` then `str(...)` for a
dict element of the skills array; a non-dict element is kept as is
(src/server.py 446). -/
def skillElem (e : Json) : Json :=
  match e with
  | .obj fs =>
      .str (pyStr (((jsonGet fs "title").getD
        ((jsonGet fs "name").getD ((jsonGet fs "skill").getD (.obj fs))))))
  | _ => e

/-- `sep.join(xs)`: raises `TypeError` when an element is not a `str`. -/
def pyJoinE (sep : String) (xs : List Json) : Except String String :=
  match xs.mapM (fun j => match j with | .str s => some s | _ => none) with
  | some ss => .ok (String.intercalate sep ss)
  | none => .error "TypeError: sequence item: expected str instance"

/-- The body of the skills `try:` block (src/server.py 443-449). -/
def skillsAttempt (s : String) : Except String String := do
  let d ← json_loadsE s
  match d with
  | .arr xs => pyJoinE ", " (xs.map skillElem)
  | _ => pure (pyStr d)

/-- Skills normalization (src/server.py 441-451): the value of the local
`skills` after the `if/try/except` block, as a fallible step (all raising
sub-steps are inside the handled attempt, so this is always `.ok`). -/
def skillsRawE (v : Option String) : Except String String :=
  match v with
  | none => .ok ""
  | some s =>
    if s = "" then .ok ""
    else
      match skillsAttempt s with
      | .ok r => .ok r
      | .error _ => .ok s

/-- The comma-separated branch of the keywords normalizer
(src/server.py 464): split on commas, strip, drop empties. -/
def commaTokens (s : String) : List String :=
  ((pySplit s ",").map pyStrip).filter (· ≠ "")

/-- The filter of the keywords join (src/server.py 468):
`k and str(k).strip().lower() != 'null'`. -/
def keywordElemKeep (k : Json) : Bool :=
  pyTruthy k && (pyLowerStr (pyStrip (pyStr k)) ≠ "null")

/-- `" | ".join([str(k) for k in kw_data if k and str(k).strip().lower() != 'null'])`. -/
def keywordsFromList (xs : List Json) : String :=
  String.intercalate " | " ((xs.filter keywordElemKeep).map pyStr)

/-- The body of the keywords `try:` block (src/server.py 459-470). -/
def keywordsAttempt (s : String) : Except String String := do
  let kw_data ←
    if pyStartsWith (pyStrip s) "[" then json_loadsE s
    else pure (Json.arr ((commaTokens s).map Json.str))
  match kw_data with
  | .arr xs => pure (keywordsFromList xs)
  | _ => pure (pyStr kw_data)

/-- Keywords normalization (src/server.py 457-472): the value of the local
`keywords` after the `if/try/except` block. -/
def keywordsRawE (v : Option String) : Except String String :=
  match v with
  | none => .ok ""
  | some s =>
    if s = "" then .ok ""
    else
      match keywordsAttempt s with
      | .ok r => .ok r
      | .error _ => .ok s

/-- The skills display cell: `format_cell(skills, 40)` (src/server.py 454). -/
def skillsCellE (v : Option String) : Except String String :=
  (skillsRawE v).map (format_cell · 40)

/-- The keywords display cell: `format_cell(keywords, 40)` (src/server.py 475). -/
def keywordsCellE (v : Option String) : Except String String :=
  (keywordsRawE v).map (format_cell · 40)

/-- Canonical serialization of a JSON-typed column in `export_network_csv`
(src/server.py 557-562): `json.dumps(value, default=str) if value else ''`
for a text-column value. -/
def canonicalField (v : Option String) : String :=
  match v with
  | none => ""
  | some s => if s = "" then "" else dumpJson (.str s)

/-! ## The `people` table and the query layer -/

/-- A row of the `people` table: the tenant key and the columns the tools
select.  List-valued columns are stored as text in any of the encodings
the Normalizer tolerates. -/
structure Row where
  user_id : String
  full_name : Option String
  email : Option String
  linkedin_url : Option String
  headline : Option String
  about : Option String
  current_company : Option String
  current_company_linkedin_url : Option String
  current_company_website_url : Option String
  current_company_detail : Option String
  experiences : Option String
  skills : Option String
  education : Option String
  keywords : Option String
deriving DecidableEq

def optStr (v : Option String) : Json :=
  match v with
  | some s => .str s
  | none => .null

/-- `dict(r)` for the 13-column SELECT used by search/filter. -/
def searchRowObj (r : Row) : Json :=
  .obj [("full_name", optStr r.full_name), ("email", optStr r.email),
    ("linkedin_url", optStr r.linkedin_url), ("headline", optStr r.headline),
    ("about", optStr r.about), ("current_company", optStr r.current_company),
    ("current_company_linkedin_url", optStr r.current_company_linkedin_url),
    ("current_company_website_url", optStr r.current_company_website_url),
    ("current_company_detail", optStr r.current_company_detail),
    ("experiences", optStr r.experiences), ("skills", optStr r.skills),
    ("education", optStr r.education), ("keywords", optStr r.keywords)]

/-- `dict(r)` for the `SELECT *` of `get_profile`. -/
def profileObj (r : Row) : Json :=
  .obj (("user_id", Json.str r.user_id) ::
    (match searchRowObj r with | .obj fs => fs | _ => []))

/-- SQL `LIKE` pattern matching over characters (`%` any run, `_` any one
character, backslash escaping the next pattern character, as in Postgres
with the default `ESCAPE`), with a fuel bound for structural recursion;
each recursive step shortens the pattern or the text, so the wrapper
`likeMatch` supplies enough fuel.  A pattern ending in a bare escape is
an error in Postgres, modelled as no match. -/
def likeMatchF : Nat → List Char → List Char → Bool
  | 0, _, _ => false
  | f + 1, p, s =>
    match p with
    | [] => s.isEmpty
    | c :: ps =>
      if c = '\\' then
        (match ps with
         | [] => false
         | e :: ps2 =>
           (match s with
            | [] => false
            | d :: s2 => e = d && likeMatchF f ps2 s2))
      else if c = '%' then
        likeMatchF f ps s ||
          (match s with
           | [] => false
           | _ :: s2 => likeMatchF f (c :: ps) s2)
      else if c = '_' then
        (match s with
         | [] => false
         | _ :: s2 => likeMatchF f ps s2)
      else
        (match s with
         | [] => false
         | d :: s2 => c = d && likeMatchF f ps s2)

/-- SQL `LIKE` over a whole pattern and a whole text. -/
def likeMatch (p s : List Char) : Bool :=
  likeMatchF (p.length + s.length + 1) p s

/-- Postgres `text ILIKE pattern`. -/
def ilike (text pattern : String) : Bool :=
  likeMatch (pyLowerStr pattern).data (pyLowerStr text).data

/-- The row predicate of `get_profile`'s query:
`user_id = $1 AND full_name ILIKE '%name%'` (NULL names never match). -/
def profileMatches (user_id name : String) (r : Row) : Bool :=
  r.user_id = user_id &&
    (match r.full_name with
     | some fn => ilike fn ("%" ++ name ++ "%")
     | none => false)

/-- `fetchrow(... LIMIT 1)` without `ORDER BY`: the first matching row in
the table's stored order. -/
def profileQuery (user_id name : String) (table : List Row) : Option Row :=
  (table.filter (profileMatches user_id name)).head?

/-- The not-found payload of `get_profile` (src/server.py 142). -/
def profileNotFound (name : String) : String :=
  dumpJson (.obj [("error", .str ("No profile found for: " ++ name))])

/-- `get_profile` (src/server.py 133-142) over a table in stored order. -/
def get_profile (user_id name : String) (table : List Row) : String :=
  match profileQuery user_id name table with
  | some r => dumpJsonInd 0 (profileObj r)
  | none => profileNotFound name

/-! ## The dynamic SQL of `filter_by_keywords` (src/server.py 165-179) -/

/-- One disjunct of the keyword predicate, built by string interpolation:
`f"keywords::text ILIKE '%{kw}%'"`. -/
def kwCondition (kw : String) : String :=
  "keywords::text ILIKE '%" ++ kw ++ "%'"

/-- `" OR ".join(...)` over the interpolated disjuncts (src/server.py 168). -/
def keyword_conditions (kws : List String) : String :=
  String.intercalate " OR " (kws.map kwCondition)

/-- The WHERE clause of the query `filter_by_keywords` sends to the pool. -/
def filterWhereClause (kws : List String) : String :=
  "WHERE user_id = $1 AND (" ++ keyword_conditions kws ++ ")"

/-- Scan a SQL text, keeping the characters that stand outside every
single-quoted string literal; the flag says whether the scan is inside a
literal (a doubled quote inside a literal is an escaped quote). -/
def sqlScan : Bool → List Char → List Char
  | _, [] => []
  | false, c :: rest =>
      if c = '\'' then sqlScan true rest else c :: sqlScan false rest
  | true, '\'' :: '\'' :: rest => sqlScan true rest
  | true, '\'' :: rest => sqlScan false rest
  | true, _ :: rest => sqlScan true rest

/-- The statement-level skeleton of a SQL text: what a SQL parser reads as
structure rather than as literal content. -/
def outsideLiteralText (s : String) : String := String.mk (sqlScan false s.data)

/-! ## Tool operations at the dispatch boundary

Each tool is a function of the resolved-credential step and of the
outcome of its database fetch (the oracle for the pooled connection):
`Except.error` is an exception crossing that boundary, `Except.ok` a
string payload returned to the dispatch framework. -/

/-- `search_network` (src/server.py 65-112): no `try/except` around the
body, so a fetch failure crosses the boundary raw. -/
def search_networkE (uid : Except String String)
    (db : Except String (List Row)) : Except String String := do
  let _u ← uid
  let rows ← db
  pure (dumpJsonInd 0 (.arr (rows.map searchRowObj)))

/-- `get_profile` (src/server.py 114-142) at the boundary: no `try/except`. -/
def get_profileE (uid : Except String String) (name : String)
    (db : Except String (Option Row)) : Except String String := do
  let _u ← uid
  let result ← db
  match result with
  | some r => pure (dumpJsonInd 0 (profileObj r))
  | none => pure (profileNotFound name)

/-- `filter_by_keywords` (src/server.py 144-179) at the boundary: builds
its predicate by interpolation, then fetches; no `try/except`. -/
def filter_by_keywordsE (uid : Except String String) (kws : List String)
    (db : Except String (List Row)) : Except String String := do
  let _u ← uid
  let _query := filterWhereClause kws
  let rows ← db
  pure (dumpJsonInd 0 (.arr (rows.map searchRowObj)))

/-- `analyze_network` (src/server.py 181-271): the first keywords query is
wrapped in `try/except` with a fallback query; the stats, fallback and
companies fetches are unguarded. -/
def analyze_networkE (uid : Except String String)
    (stats : Except String (Nat × Nat))
    (kwPrimary kwFallback : Except String (List (String × Nat)))
    (companies : Except String (List (String × Nat))) : Except String String := do
  let _u ← uid
  let st ← stats
  let top_keywords ← match kwPrimary with
    | .ok v => Except.ok v
    | .error _ => kwFallback
  let top_companies ← companies
  pure (dumpJsonInd 0 (.obj [
    ("overview", .obj [("total_connections", .num (toString st.1)),
      ("unique_companies", .num (toString st.2))]),
    ("top_keywords", .arr (top_keywords.map fun p =>
      .obj [("keyword", .str p.1), ("count", .num (toString p.2))])),
    ("top_companies", .arr (top_companies.map fun p =>
      .obj [("current_company", .str p.1), ("count", .num (toString p.2))]))]))

/-- One data row of the markdown table (src/server.py 432-486), with the
pipe-escaping of every cell. -/
def tableRowE (r : Row) : Except String String := do
  let full_name := format_cell (optText r.full_name) 25
  let email := format_cell (optText r.email) 30
  let linkedin_url := format_cell (optText r.linkedin_url) 35
  let company := format_cell
    (extract_company_name (pyOrO r.current_company r.current_company_detail)) 30
  let skills ← skillsCellE r.skills
  let keywords ← keywordsCellE r.keywords
  let esc := fun (s : String) => pyReplaceChar '|' ['\\', '|'] s
  pure ("| " ++ esc full_name ++ " | " ++ esc email ++ " | " ++
    esc linkedin_url ++ " | " ++ esc company ++ " | " ++ esc skills ++
    " | " ++ esc keywords ++ " |")

/-- `export_network_table` (src/server.py 378-492): the whole body is in a
`try:` whose `except` returns an error string payload. -/
def export_network_tableE (uid : Except String String)
    (db : Except String (List Row)) : Except String String :=
  match (do
    let _u ← uid
    let rows ← db
    if rows.isEmpty then
      pure "No data found in your network."
    else do
      let lines ← rows.mapM tableRowE
      pure (String.intercalate "\n"
        ("| Full Name | Email | LinkedIn URL | Current Company | Skills | Keywords |" ::
         "|-----------|-------|--------------|-----------------|--------|----------|" ::
         lines)) : Except String String) with
  | .ok r => .ok r
  | .error e =>
      .ok ("Error accessing database: " ++ e ++
        ". Cannot generate table without real data.")

/-! ## `export_network_csv` (src/server.py 494-596) -/

/-- The CSV writer's cell encoding (`csv` module, QUOTE_MINIMAL): quote
when the cell holds the delimiter, the quote character or a line break,
doubling embedded quotes. -/
def csvNeedsQuote (s : String) : Bool :=
  s.data.any fun c => c = ',' || c = '"' || c = '\n' || c = '\r'

def csvDoubleL : List Char → List Char
  | [] => []
  | c :: rest =>
    if c = '"' then '"' :: '"' :: csvDoubleL rest else c :: csvDoubleL rest

def csvDouble (s : String) : String := String.mk (csvDoubleL s.data)

def csvCell (s : String) : String :=
  if csvNeedsQuote s then "\"" ++ csvDouble s ++ "\"" else s

/-- The CSV reader's cell decoding, the inverse at the cell level: an
unquoted cell is literal; a quoted cell drops the outer quotes and
collapses doubled quotes (stopping at the closing quote). -/
def csvUnDouble : List Char → List Char
  | [] => []
  | c :: rest =>
    if c = '"' then
      match rest with
      | [] => []
      | d :: rest2 => if d = '"' then '"' :: csvUnDouble rest2 else []
    else c :: csvUnDouble rest

def csvReadCell (s : String) : String :=
  match s.data with
  | c :: rest => if c = '"' then String.mk (csvUnDouble rest) else s
  | [] => s

/-- One record line (`csv.DictWriter.writerow`, default `\r\n` terminator). -/
def csvRowLine (cells : List String) : String :=
  String.intercalate "," (cells.map csvCell) ++ "\r\n"

def csvFieldnames : List String :=
  ["full_name", "email", "linkedin_url", "headline", "about",
   "current_company", "current_company_linkedin_url",
   "current_company_website_url", "current_company_detail",
   "experiences", "skills", "education", "keywords"]

/-- The serialized record of one row (src/server.py 551-566): plain
columns pass `value if value is not None else ''`; the four JSON columns
pass `json.dumps(value, default=str) if value else ''`. -/
def csvRecordCells (r : Row) : List String :=
  [optText r.full_name, optText r.email, optText r.linkedin_url,
   optText r.headline, optText r.about, optText r.current_company,
   optText r.current_company_linkedin_url, optText r.current_company_website_url,
   optText r.current_company_detail,
   canonicalField r.experiences, canonicalField r.skills,
   canonicalField r.education, canonicalField r.keywords]

def csv_content (rows : List Row) : String :=
  csvRowLine csvFieldnames ++ String.join (rows.map fun r => csvRowLine (csvRecordCells r))

/-- `os.path.join(cwd, name)` for an absolute `cwd` and relative `name`. -/
def pyPathJoin (cwd name : String) : String :=
  if cwd = "" then name
  else if pyEndsWith cwd "/" then cwd ++ name
  else cwd ++ "/" ++ name

def exportFilename : String := "linkedin_network_export.csv"

def utf8Bytes (s : String) : List Nat := s.toUTF8.toList.map (·.toNat)

def base64Alphabet : String :=
  "ABCDEFGHIJKLMNOPQRSTUVWXYZabcdefghijklmnopqrstuvwxyz0123456789+/"

def b64Char (n : Nat) : Char := base64Alphabet.data.getD n 'A'

/-- `base64.b64encode` over a byte list. -/
def base64Encode : List Nat → String
  | [] => ""
  | [a] =>
      String.mk [b64Char (a / 4), b64Char (a % 4 * 16), '=', '=']
  | [a, b] =>
      String.mk [b64Char (a / 4), b64Char (a % 4 * 16 + b / 16),
        b64Char (b % 16 * 4), '=']
  | a :: b :: c :: rest =>
      String.mk [b64Char (a / 4), b64Char (a % 4 * 16 + b / 16),
        b64Char (b % 16 * 4 + c / 64), b64Char (c % 64)] ++ base64Encode rest

/-- `round(bytes / 1024, 2)` rendered as Python prints the resulting
float (exact decimal rounding, half to even; the binary-float
representation is abstracted away — no claim depends on this field). -/
def sizeKbLexeme (bytes : Nat) : String :=
  let num := bytes * 100
  let q0 := num / 1024
  let r := num % 1024
  let q := if r * 2 > 1024 then q0 + 1
           else if r * 2 < 1024 then q0
           else if q0 % 2 = 0 then q0 else q0 + 1
  let ip := q / 100
  let fr := q % 100
  if fr = 0 then toString ip ++ ".0"
  else if fr % 10 = 0 then toString ip ++ "." ++ toString (fr / 10)
  else toString ip ++ "." ++ (if fr < 10 then "0" else "") ++ toString fr

/-- The zero-row payload (src/server.py 532-536): status "error", a
message, and no other field. -/
def csvEmptyPayload : Json :=
  .obj [("status", .str "error"), ("message", .str "No data found in your network.")]

/-- The success payload (src/server.py 582-590). -/
def csvSuccessPayload (rows : List Row) (cwd : String) : Json :=
  .obj [("status", .str "success"),
    ("filename", .str exportFilename),
    ("filepath", .str (pyPathJoin cwd exportFilename)),
    ("row_count", .num (toString rows.length)),
    ("size_kb", .num (sizeKbLexeme (csv_content rows).utf8ByteSize)),
    ("csv_base64", .str (base64Encode (utf8Bytes (csv_content rows)))),
    ("message", .str ("Successfully exported " ++ toString rows.length ++
      " contacts to " ++ pyPathJoin cwd exportFilename))]

/-- The `except` payload (src/server.py 592-596). -/
def csvErrorPayload (e : String) : Json :=
  .obj [("status", .str "error"), ("message", .str ("Export failed: " ++ e))]

/-- The payload and the file writes of one `export_network_csv` call once
the listing query returned `rows` (src/server.py 532-590): the artifact is
written only on the success path, to `os.path.join(os.getcwd(), filename)`. -/
def export_network_csv_run (rows : List Row) (cwd : String) :
    Json × List (String × String) :=
  if rows.isEmpty then (csvEmptyPayload, [])
  else (csvSuccessPayload rows cwd, [(pyPathJoin cwd exportFilename, csv_content rows)])

/-- `export_network_csv` at the dispatch boundary: the whole body is in a
`try:` whose `except` returns the error payload (and has written nothing,
every failing step preceding the write). -/
def export_network_csvE (uid : Except String String)
    (db : Except String (List Row)) (cwd : String) :
    Except String (String × List (String × String)) :=
  match (do
    let _u ← uid
    let rows ← db
    pure (export_network_csv_run rows cwd) :
      Except String (Json × List (String × String))) with
  | .ok pw => .ok (dumpJsonInd 0 pw.1, pw.2)
  | .error e => .ok (dumpJsonInd 0 (csvErrorPayload e), [])

/-! ## `run_export` (src/export_csv.py 11-52) -/

def jsonObjGet (j : Json) (k : String) : Option Json :=
  match j with
  | .obj fs => jsonGet fs k
  | _ => none

/-- The exit code of `run_export` given the parsed payload of
`export_network_csv` and the files present when it checks
`os.path.isfile("data/network.csv")` (the copy to the requested output
path is an OS step outside this model and cannot change the code). -/
def run_export (payload : Json) (files : List String) : Nat :=
  match jsonObjGet payload "status" with
  | some (.str s) =>
      if s = "success" then
        if files.contains "data/network.csv" then 0 else 3
      else 2
  | _ => 2

/-! ## Credential resolution and the per-call context

`current_api_key` is a `contextvars.ContextVar` (src/server.py 30).  Under
asyncio each in-flight call runs in its own `Context`, so the variable has
one slot per call: `set` and `reset` in one call's context never touch
another call's slot.  The middleware (src/server.py 615-626) sets the slot
from the inbound headers before running the call and resets it after;
`get_user_id` (src/server.py 48-53) reads the slot and falls back to the
environment value. -/

/-- Lookup in the middleware's header dict `{k.decode().lower(): v.decode()}`:
keys lower-cased, a repeated key keeps the last value. -/
def headersGet (hs : List (String × String)) (k : String) : Option String :=
  ((hs.filter (fun p => pyLowerStr p.1 = k)).getLast?).map (·.2)

/-- Python `s.split(" ", 1)[1]` for a string that contains a space. -/
def afterFirstSpace (s : String) : String :=
  String.mk ((s.data.dropWhile (· ≠ ' ')).drop 1)

/-- The middleware's credential extraction (src/server.py 619-622):
`api_key`, `x-api-key`, `api-key` then `authorization`, each skipped when
missing or empty, and a bearer prefix stripped. -/
def extract_api_key (hs : List (String × String)) : Option String :=
  let api_key := pyOrO (headersGet hs "api_key")
    (pyOrO (headersGet hs "x-api-key")
      (pyOrO (headersGet hs "api-key") (headersGet hs "authorization")))
  match api_key with
  | some s =>
      if s ≠ "" && pyStartsWith (pyLowerStr s) "bearer " then
        some (pyStrip (afterFirstSpace s))
      else some s
  | none => none

/-- `get_user_id` (src/server.py 48-53): the call's context slot, else the
environment fallback (`os.getenv("API_KEY")` and the module-load constant
`API_KEY` hold the same value, modelled as one); raises when every source
is missing or empty. -/
def get_user_id (slot env : Option String) : Except String String :=
  match pyOrO slot env with
  | some s =>
      if s = "" then
        .error "API_KEY not set. Provide it via 'API_KEY'/'X-API-Key' header or env."
      else .ok s
  | none =>
      .error "API_KEY not set. Provide it via 'API_KEY'/'X-API-Key' header or env."

/-- The visible actions of one call on the context variable: the
middleware's `set`, the tool's `get_user_id`, the middleware's `reset`. -/
inductive Act where
  | vset (v : Option String) : Act
  | vget : Act
  | vreset : Act

inductive CallId where
  | ca : CallId
  | cb : CallId
deriving DecidableEq

/-- The joint state of two in-flight calls: each call's context slot (a
`ContextVar` slot exists per context), the token saved by its `set`, and
the values its `get_user_id` calls observed. -/
structure CtxState where
  ctxA : Option String
  savedA : Option String
  obsA : List (Except String String)
  ctxB : Option String
  savedB : Option String
  obsB : List (Except String String)

def initCtx : CtxState := ⟨none, none, [], none, none, []⟩

/-- One interleaved step: an action of one call touches only that call's
slot (the `contextvars` isolation guarantee). -/
def ctxStep (env : Option String) (s : CtxState) : CallId × Act → CtxState
  | (.ca, .vset v) => { s with savedA := s.ctxA, ctxA := v }
  | (.ca, .vget) => { s with obsA := s.obsA ++ [get_user_id s.ctxA env] }
  | (.ca, .vreset) => { s with ctxA := s.savedA }
  | (.cb, .vset v) => { s with savedB := s.ctxB, ctxB := v }
  | (.cb, .vget) => { s with obsB := s.obsB ++ [get_user_id s.ctxB env] }
  | (.cb, .vreset) => { s with ctxB := s.savedB }

def execTrace (env : Option String) (s : CtxState) (tr : List (CallId × Act)) : CtxState :=
  tr.foldl (ctxStep env) s

/-- The program one call runs, given its inbound headers: the middleware's
`set`, the tool body's `get_user_id`, the middleware's `reset`
(src/server.py 623-625). -/
def callProg (hs : List (String × String)) : List Act :=
  [.vset (extract_api_key hs), .vget, .vreset]

/-- Single-call semantics on one call's (slot, saved token, observations). -/
def ctxStepCall (env : Option String)
    (p : Option String × Option String × List (Except String String)) (a : Act) :
    Option String × Option String × List (Except String String) :=
  match a with
  | .vset v => (v, p.1, p.2.2)
  | .vget => (p.1, p.2.1, p.2.2 ++ [get_user_id p.1 env])
  | .vreset => (p.2.1, p.2.1, p.2.2)

def isCallA (x : CallId × Act) : Bool := x.1 = CallId.ca

def isCallB (x : CallId × Act) : Bool := x.1 = CallId.cb

/-! ## Claim theorems -/

/-- C2: the claim requires each keyword to reach the query as an escaped
literal or bound parameter.  The code interpolates the raw keyword into
the SQL text, so a keyword holding a single quote terminates the literal
and its tail becomes statement-level SQL: the out-of-literal skeleton of
the generated predicate gains a second ILIKE disjunct that no supplied
keyword list of that shape produces. -/
theorem keyword_injection_alters_predicate :
    keyword_conditions ["x' OR full_name ILIKE 'y"] =
      "keywords::text ILIKE '%x' OR full_name ILIKE 'y%'" ∧
    outsideLiteralText (keyword_conditions ["ai"]) = "keywords::text ILIKE " ∧
    outsideLiteralText (keyword_conditions ["x' OR full_name ILIKE 'y"]) =
      "keywords::text ILIKE  OR full_name ILIKE " ∧
    outsideLiteralText (keyword_conditions ["x' OR full_name ILIKE 'y"]) ≠
      outsideLiteralText (keyword_conditions ["ai"]) := by
  refine ⟨rfl, rfl, rfl, ?_⟩
  decide

/-- C3: the display normalizer (skills and keywords cells of
`export_network_table`) returns a payload for every input — every raising
step sits inside the handled attempt — and the canonical serializer of
`export_network_csv` is total; `None` and the empty string give the empty
string on both sides. -/
theorem normalizer_total_and_empty :
    (∀ v : Option String,
        (∃ r, skillsCellE v = .ok r) ∧ (∃ r, keywordsCellE v = .ok r)) ∧
    skillsCellE none = .ok "" ∧ skillsCellE (some "") = .ok "" ∧
    keywordsCellE none = .ok "" ∧ keywordsCellE (some "") = .ok "" ∧
    canonicalField none = "" ∧ canonicalField (some "") = "" := by
  refine ⟨?_, rfl, rfl, rfl, rfl, rfl, rfl⟩
  intro v
  constructor
  · match v with
    | none => exact ⟨"", rfl⟩
    | some s =>
      by_cases hs : s = ""
      · exact ⟨"", by subst hs; rfl⟩
      · cases h : skillsAttempt s with
        | ok r =>
            exact ⟨format_cell r 40,
              by simp [skillsCellE, skillsRawE, hs, h, Except.map]⟩
        | error e =>
            exact ⟨format_cell s 40,
              by simp [skillsCellE, skillsRawE, hs, h, Except.map]⟩
  · match v with
    | none => exact ⟨"", rfl⟩
    | some s =>
      by_cases hs : s = ""
      · exact ⟨"", by subst hs; rfl⟩
      · cases h : keywordsAttempt s with
        | ok r =>
            exact ⟨format_cell r 40,
              by simp [keywordsCellE, keywordsRawE, hs, h, Except.map]⟩
        | error e =>
            exact ⟨format_cell s 40,
              by simp [keywordsCellE, keywordsRawE, hs, h, Except.map]⟩

/-- C4 counterexample: a database failure inside `search_network` crosses
the operation boundary as a raw exception — the body has no `try/except`,
so the dispatch framework receives the error, not a structured payload. -/
theorem search_network_raw_db_error :
    search_networkE (.ok "tenant-1") (.error "asyncpg.PostgresError: connection reset") =
      .error "asyncpg.PostgresError: connection reset" := rfl

/-- C4 amended: only the two export operations convert database failures
into returned payloads at their boundary; search, lookup, keyword filter
and aggregation propagate them raw, and aggregation retries its keywords
query once through the fallback query before propagating. -/
theorem error_boundary_by_operation (e uid name cwd : String) (kws : List String)
    (nm : Nat × Nat) (kf tc : List (String × Nat)) :
    search_networkE (.ok uid) (.error e) = .error e ∧
    get_profileE (.ok uid) name (.error e) = .error e ∧
    filter_by_keywordsE (.ok uid) kws (.error e) = .error e ∧
    analyze_networkE (.ok uid) (.error e) (.ok kf) (.ok kf) (.ok tc) = .error e ∧
    analyze_networkE (.ok uid) (.ok nm) (.error e) (.ok kf) (.ok tc) =
      analyze_networkE (.ok uid) (.ok nm) (.ok kf) (.ok kf) (.ok tc) ∧
    analyze_networkE (.ok uid) (.ok nm) (.error e) (.error e) (.ok tc) = .error e ∧
    export_network_tableE (.ok uid) (.error e) =
      .ok ("Error accessing database: " ++ e ++
        ". Cannot generate table without real data.") ∧
    export_network_csvE (.ok uid) (.error e) cwd =
      .ok (dumpJsonInd 0 (csvErrorPayload e), []) :=
  ⟨rfl, rfl, rfl, rfl, rfl, rfl, rfl, rfl⟩

/-- C5 counterexample: the skills JSON-array branch joins its elements
with no token filter, so the ingestion artifacts survive: normalizing
`["ai","","null"]` emits both an empty token and a literal `null` token
in the display output. -/
theorem skills_branch_keeps_artifact_tokens :
    skillsRawE (some "[\"ai\",\"\",\"null\"]") = .ok "ai, , null" ∧
    skillsCellE (some "[\"ai\",\"\",\"null\"]") = .ok "ai, , null" ∧
    (pySplit "ai, , null" ", ").contains "" = true ∧
    (pySplit "ai, , null" ", ").contains "null" = true :=
  ⟨rfl, rfl, rfl, rfl⟩

/-- C5 amended: the token filtering exists only on the keywords side —
the join filter drops falsy elements and elements whose stripped
lower-casing is `null`, and the comma-split branch additionally strips
its tokens and drops the ones empty after stripping; the skills branches
filter nothing. -/
theorem keywords_branches_filter_tokens :
    (∀ (xs : List Json) (k : Json), k ∈ xs.filter keywordElemKeep →
        pyTruthy k = true ∧ pyLowerStr (pyStrip (pyStr k)) ≠ "null") ∧
    (∀ (s t : String), t ∈ commaTokens s → t ≠ "" ∧ (∃ u, t = pyStrip u)) := by
  constructor
  · intro xs k hk
    have h := List.of_mem_filter hk
    simpa [keywordElemKeep, Bool.and_eq_true, decide_eq_true_eq] using h
  · intro s t ht
    obtain ⟨hmem, hne⟩ := List.mem_filter.mp ht
    refine ⟨by simpa using hne, ?_⟩
    obtain ⟨u, _, hu⟩ := List.mem_map.mp hmem
    exact ⟨u, hu.symm⟩

/-- C5 witness: the keywords join filter at a concrete input. -/
theorem keywords_branches_filter_tokens_witness :
    pyTruthy (Json.str "ai") = true ∧
    pyLowerStr (pyStrip (pyStr (Json.str "ai"))) ≠ "null" :=
  keywords_branches_filter_tokens.1 [Json.str "ai", Json.str "null"] (Json.str "ai")
    (by simp [keywordElemKeep, pyTruthy, pyStr, pyStrip, pyLowerStr]; decide)

/-- C6 counterexample: for the non-JSON input `"ai, founder, , null"` the
keywords normalizer does not fall back to the verbatim raw value — its
comma branch splits, strips, filters and joins with `" | "`. -/
theorem keywords_comma_branch_not_verbatim :
    keywordsRawE (some "ai, founder, , null") = .ok "ai | founder" ∧
    "ai | founder" ≠ "ai, founder, , null" :=
  ⟨rfl, by decide⟩

/-- C6 amended: the verbatim fallback is the skills behaviour for every
non-JSON text, and the keywords behaviour only for text that looks like
JSON (stripped form starting with `[`) and then fails to parse; other
keywords text takes the comma-split branch instead. -/
theorem parse_failure_fallback_verbatim (s : String) (hs : s ≠ "")
    (hp : json_loads s = none) :
    skillsRawE (some s) = .ok s ∧
    (pyStartsWith (pyStrip s) "[" = true → keywordsRawE (some s) = .ok s) := by
  have hE : json_loadsE s = .error "json.decoder.JSONDecodeError" := by
    simp [json_loadsE, hp]
  constructor
  · have hA : skillsAttempt s = .error "json.decoder.JSONDecodeError" := by
      simp [skillsAttempt, hE, Bind.bind, Except.bind]
    simp [skillsRawE, hs, hA]
  · intro hb
    have hA : keywordsAttempt s = .error "json.decoder.JSONDecodeError" := by
      simp [keywordsAttempt, hb, hE, Bind.bind, Except.bind]
    simp [keywordsRawE, hs, hA]

/-- C6 witness: the two fallbacks at concrete non-JSON inputs. -/
theorem parse_failure_fallback_verbatim_witness :
    skillsRawE (some "ai, founder, , null") = .ok "ai, founder, , null" ∧
    (pyStartsWith (pyStrip "[oops") "[" = true →
      keywordsRawE (some "[oops") = .ok "[oops") :=
  ⟨(parse_failure_fallback_verbatim "ai, founder, , null" (by decide) (by rfl)).1,
   (parse_failure_fallback_verbatim "[oops" (by decide) (by rfl)).2⟩

/-- C8 counterexample: the zero-row export returns the structured payload
`{"status": "error", "message": "No data found in your network."}` — it
has no `row_count` field at all (and its status is "error"), though it is
a returned payload, not an exception, and writes no artifact. -/
theorem empty_export_payload_shape :
    export_network_csvE (.ok "tenant-1") (.ok []) "/app" =
      .ok (dumpJsonInd 0 csvEmptyPayload, []) ∧
    jsonObjGet csvEmptyPayload "row_count" = none ∧
    jsonObjGet csvEmptyPayload "status" = some (.str "error") ∧
    jsonObjGet csvEmptyPayload "message" =
      some (.str "No data found in your network.") :=
  ⟨rfl, rfl, rfl, rfl⟩

/-- C8 amended: for every tenant and working directory, a zero-row export
returns the structured informational payload (status "error", the
no-data message, and no row-count field) as a value, never an exception,
and performs no file write. -/
theorem empty_export_amended (uid cwd : String) :
    export_network_csvE (.ok uid) (.ok []) cwd =
      .ok (dumpJsonInd 0 csvEmptyPayload, []) ∧
    export_network_csv_run [] cwd = (csvEmptyPayload, []) ∧
    jsonObjGet csvEmptyPayload "row_count" = none :=
  ⟨rfl, rfl, rfl⟩

/-! ## Pattern-matching lemmas for `ILIKE '%name%'` -/

theorem likeMatchF_irrel (f1 : Nat) :
    ∀ (f2 : Nat) (p s : List Char), p.length + s.length < f1 →
      p.length + s.length < f2 → likeMatchF f1 p s = likeMatchF f2 p s := by
  induction f1 with
  | zero => intro f2 p s h1 h2; omega
  | succ f ih =>
    intro f2 p s h1 h2
    cases f2 with
    | zero => omega
    | succ f2' =>
      cases p with
      | nil => rfl
      | cons c ps =>
        by_cases hb : c = '\\'
        · subst hb
          cases ps with
          | nil => rfl
          | cons e ps2 =>
            cases s with
            | nil => rfl
            | cons d s2 =>
              simp only [List.length_cons] at h1 h2
              show (decide (e = d) && likeMatchF f ps2 s2) =
                (decide (e = d) && likeMatchF f2' ps2 s2)
              rw [ih f2' ps2 s2 (by (try simp only [List.length_cons, List.length_nil]); omega) (by (try simp only [List.length_cons, List.length_nil]); omega)]
        by_cases hc : c = '%'
        · subst hc
          cases s with
          | nil =>
            simp only [List.length_cons] at h1 h2
            show (likeMatchF f ps [] || false) = (likeMatchF f2' ps [] || false)
            rw [ih f2' ps [] (by (try simp only [List.length_cons, List.length_nil]); omega) (by (try simp only [List.length_cons, List.length_nil]); omega)]
          | cons d s2 =>
            simp only [List.length_cons] at h1 h2
            show (likeMatchF f ps (d :: s2) || likeMatchF f ('%' :: ps) s2) =
              (likeMatchF f2' ps (d :: s2) || likeMatchF f2' ('%' :: ps) s2)
            rw [ih f2' ps (d :: s2) (by (try simp only [List.length_cons, List.length_nil]); omega) (by (try simp only [List.length_cons, List.length_nil]); omega),
              ih f2' ('%' :: ps) s2 (by (try simp only [List.length_cons, List.length_nil]); omega) (by (try simp only [List.length_cons, List.length_nil]); omega)]
        · simp only [likeMatchF, if_neg hb, if_neg hc]
          by_cases hd : c = '_'
          · subst hd
            simp only [if_pos rfl]
            cases s with
            | nil => rfl
            | cons d s2 =>
              simp only [List.length_cons] at h1 h2
              show likeMatchF f ps s2 = likeMatchF f2' ps s2
              rw [ih f2' ps s2 (by (try simp only [List.length_cons, List.length_nil]); omega) (by (try simp only [List.length_cons, List.length_nil]); omega)]
          · simp only [if_neg hd]
            cases s with
            | nil => rfl
            | cons d s2 =>
              simp only [List.length_cons] at h1 h2
              show (decide (c = d) && likeMatchF f ps s2) =
                (decide (c = d) && likeMatchF f2' ps s2)
              rw [ih f2' ps s2 (by (try simp only [List.length_cons, List.length_nil]); omega) (by (try simp only [List.length_cons, List.length_nil]); omega)]

theorem likeMatch_nil_pattern (s : List Char) : likeMatch [] s = s.isEmpty := rfl

theorem likeMatch_percent_nil (ps : List Char) :
    likeMatch ('%' :: ps) [] = likeMatch ps [] := by
  unfold likeMatch
  have h : ('%' :: ps).length + ([] : List Char).length + 1 =
      (ps.length + ([] : List Char).length + 1) + 1 := by simp
  rw [h]
  show (likeMatchF (ps.length + ([] : List Char).length + 1) ps [] || false) = _
  exact Bool.or_false _

theorem likeMatch_percent_cons (ps : List Char) (d : Char) (s2 : List Char) :
    likeMatch ('%' :: ps) (d :: s2) =
      (likeMatch ps (d :: s2) || likeMatch ('%' :: ps) s2) := by
  unfold likeMatch
  have h : ('%' :: ps).length + (d :: s2).length + 1 =
      (ps.length + s2.length + 2) + 1 := by simp; omega
  rw [h]
  show (likeMatchF (ps.length + s2.length + 2) ps (d :: s2) ||
      likeMatchF (ps.length + s2.length + 2) ('%' :: ps) s2) = _
  refine congrArg₂ (· || ·) ?_ ?_
  · exact likeMatchF_irrel _ _ _ _ (by (try simp only [List.length_cons, List.length_nil]); omega) (by (try simp only [List.length_cons, List.length_nil]); omega)
  · exact likeMatchF_irrel _ _ _ _ (by (try simp only [List.length_cons, List.length_nil]); omega) (by (try simp only [List.length_cons, List.length_nil]); omega)

theorem likeMatchF_succ_nil (f : Nat) (c : Char) (ps : List Char) (hc : ¬c = '%') :
    likeMatchF (f + 1) (c :: ps) [] = false := by
  by_cases hb : c = '\\'
  · subst hb; cases ps <;> rfl
  · by_cases hd : c = '_'
    · subst hd; rfl
    · simp only [likeMatchF, if_neg hb, if_neg hc, if_neg hd]

theorem likeMatch_lit_nil (c : Char) (ps : List Char) (hc : ¬c = '%') :
    likeMatch (c :: ps) [] = false := by
  unfold likeMatch
  have h : (c :: ps).length + ([] : List Char).length + 1 = (ps.length + 1) + 1 := by
    simp
  rw [h]
  exact likeMatchF_succ_nil _ _ _ hc

theorem likeMatchF_succ_lit (f : Nat) (c : Char) (ps : List Char) (d : Char)
    (s2 : List Char) (hb : ¬c = '\\') (hc : ¬c = '%') (hd : ¬c = '_') :
    likeMatchF (f + 1) (c :: ps) (d :: s2) = (decide (c = d) && likeMatchF f ps s2) := by
  simp only [likeMatchF, if_neg hb, if_neg hc, if_neg hd]

theorem likeMatch_lit_cons (c : Char) (ps : List Char) (d : Char) (s2 : List Char)
    (hb : ¬c = '\\') (hc : ¬c = '%') (hd : ¬c = '_') :
    likeMatch (c :: ps) (d :: s2) = (decide (c = d) && likeMatch ps s2) := by
  unfold likeMatch
  have h : (c :: ps).length + (d :: s2).length + 1 =
      (ps.length + s2.length + 2) + 1 := by simp; omega
  rw [h, likeMatchF_succ_lit _ _ _ _ _ hb hc hd]
  refine congrArg₂ (· && ·) rfl ?_
  apply likeMatchF_irrel <;> (try simp only [List.length_cons, List.length_nil]) <;> omega

theorem likeMatch_percent_iff (ps : List Char) (s : List Char) :
    likeMatch ('%' :: ps) s = true ↔ ∃ t, t <:+ s ∧ likeMatch ps t = true := by
  induction s with
  | nil =>
    rw [likeMatch_percent_nil]
    constructor
    · intro h; exact ⟨[], List.suffix_rfl, h⟩
    · rintro ⟨t, ht, h⟩
      rw [List.suffix_nil] at ht
      subst ht; exact h
  | cons d s2 ih =>
    rw [likeMatch_percent_cons, Bool.or_eq_true, ih]
    constructor
    · rintro (h | ⟨t, ht, h⟩)
      · exact ⟨d :: s2, List.suffix_rfl, h⟩
      · exact ⟨t, ht.trans (List.suffix_cons d s2), h⟩
    · rintro ⟨t, ht, h⟩
      rcases List.suffix_cons_iff.mp ht with h1 | h1
      · subst h1; exact Or.inl h
      · exact Or.inr ⟨t, h1, h⟩

theorem likeMatch_lit_percent (lit : List Char)
    (hl : ∀ c ∈ lit, ¬c = '%' ∧ ¬c = '_' ∧ ¬c = '\\') :
    ∀ t, (likeMatch (lit ++ ['%']) t = true ↔ lit <+: t) := by
  induction lit with
  | nil =>
    intro t
    simp only [List.nil_append, List.nil_prefix, iff_true]
    rw [likeMatch_percent_iff]
    exact ⟨[], List.nil_suffix, rfl⟩
  | cons c lit' ih =>
    intro t
    have hc := hl c (List.mem_cons_self c lit')
    have hl' : ∀ x ∈ lit', ¬x = '%' ∧ ¬x = '_' ∧ ¬x = '\\' := fun x hx =>
      hl x (List.mem_cons_of_mem c hx)
    cases t with
    | nil =>
      rw [List.cons_append, likeMatch_lit_nil c _ hc.1]
      simp
    | cons d t2 =>
      rw [List.cons_append, likeMatch_lit_cons c _ d t2 hc.2.2 hc.1 hc.2.1,
        Bool.and_eq_true, decide_eq_true_eq, ih hl' t2, List.cons_prefix_cons]

theorem lowerChar_wild (c : Char) :
    (lowerChar c = '%' ↔ c = '%') ∧ (lowerChar c = '_' ↔ c = '_') ∧
      (lowerChar c = '\\' ↔ c = '\\') := by
  unfold lowerChar
  split <;> first | decide | simp_all

/-- No SQL wildcard or escape characters in a search argument: for such a
`name`, `ILIKE '%name%'` means exactly "contains `name`
case-insensitively". -/
def noWildcards (s : String) : Bool :=
  s.data.all fun c => !(c = '%' || c = '_' || c = '\\')

/-- `needle` is a case-insensitive substring of `hay` (ASCII case fold). -/
def containsCI (hay needle : String) : Prop :=
  List.IsInfix (pyLowerStr needle).data (pyLowerStr hay).data

theorem ilike_substring (field name : String) (hw : noWildcards name = true) :
    (ilike field ("%" ++ name ++ "%") = true ↔ containsCI field name) := by
  have hdata : (pyLowerStr ("%" ++ name ++ "%")).data =
      '%' :: ((pyLowerStr name).data ++ ['%']) := by
    simp [pyLowerStr, String.data_append]
    decide
  rw [ilike, hdata, likeMatch_percent_iff]
  have hl : ∀ c ∈ (pyLowerStr name).data, ¬c = '%' ∧ ¬c = '_' ∧ ¬c = '\\' := by
    intro c hc
    simp only [pyLowerStr] at hc
    obtain ⟨c0, hc0, hlc⟩ := List.mem_map.mp hc
    have h0 := List.all_eq_true.mp hw c0 hc0
    simp only [Bool.not_eq_true', Bool.or_eq_false_iff, decide_eq_false_iff_not] at h0
    subst hlc
    exact ⟨fun h => h0.1.1 ((lowerChar_wild c0).1.mp h),
      fun h => h0.1.2 ((lowerChar_wild c0).2.1.mp h),
      fun h => h0.2 ((lowerChar_wild c0).2.2.mp h)⟩
  constructor
  · rintro ⟨t, ht, h⟩
    exact List.infix_iff_prefix_suffix.mpr
      ⟨t, (likeMatch_lit_percent _ hl t).mp h, ht⟩
  · intro h
    obtain ⟨t, hpre, hsuf⟩ := List.infix_iff_prefix_suffix.mp h
    exact ⟨t, hsuf, (likeMatch_lit_percent _ hl t).mpr hpre⟩

/-- Lexicographic order on character lists: ascending `ORDER BY` over
ASCII text (what "first by full name ascending" means for these rows). -/
def charListLt : List Char → List Char → Bool
  | [], [] => false
  | [], _ :: _ => true
  | _ :: _, [] => false
  | a :: as, b :: bs => if a < b then true else if b < a then false else charListLt as bs

/-- A minimal tenant row for concrete query evaluations. -/
def rowOf (uid : String) (name : String) : Row :=
  { user_id := uid, full_name := some name, email := none, linkedin_url := none,
    headline := none, about := none, current_company := none,
    current_company_linkedin_url := none, current_company_website_url := none,
    current_company_detail := none, experiences := none, skills := none,
    education := none, keywords := none }

def rowBob : Row := rowOf "u" "Bob Smith"

def rowAlice : Row := rowOf "u" "Alice Smith"

/-- C7 counterexample: with the tenant's rows stored as [Bob Smith,
Alice Smith], both matching "smith", `get_profile` returns Bob Smith —
the first row in stored order, not the first in ascending name order
(the query has `LIMIT 1` and no `ORDER BY`). -/
theorem get_profile_ignores_name_order :
    get_profile "u" "smith" [rowBob, rowAlice] = dumpJsonInd 0 (profileObj rowBob) ∧
    profileMatches "u" "smith" rowAlice = true ∧
    rowBob.full_name = some "Bob Smith" ∧
    rowAlice.full_name = some "Alice Smith" ∧
    charListLt "Alice Smith".data "Bob Smith".data = true ∧
    dumpJsonInd 0 (profileObj rowBob) ≠ dumpJsonInd 0 (profileObj rowAlice) :=
  ⟨rfl, rfl, rfl, rfl, by decide, by decide⟩

/-- C7 amended: for a wildcard-free name argument, `get_profile` returns
at most one record — the first row in the table's stored order whose full
name contains the argument as a case-insensitive substring and belongs to
the tenant — and when no row matches it returns the structured not-found
payload rather than raising. -/
theorem get_profile_first_match (user_id name : String) (table : List Row)
    (hw : noWildcards name = true) :
    (∃ r, profileQuery user_id name table = some r ∧ r ∈ table ∧
        r.user_id = user_id ∧
        (∃ fn, r.full_name = some fn ∧ containsCI fn name) ∧
        get_profile user_id name table = dumpJsonInd 0 (profileObj r)) ∨
    ((∀ r ∈ table, profileMatches user_id name r = false) ∧
      get_profile user_id name table = profileNotFound name) := by
  rcases h : profileQuery user_id name table with _ | r
  · right
    have h' := h
    unfold profileQuery at h'
    rw [List.head?_eq_none_iff, List.filter_eq_nil_iff] at h'
    constructor
    · intro r hr
      simpa using h' r hr
    · unfold get_profile
      rw [h]
  · left
    have h' := h
    unfold profileQuery at h'
    have hmem : r ∈ table.filter (profileMatches user_id name) :=
      List.mem_of_mem_head? (Option.mem_def.mpr h')
    obtain ⟨hmem_t, hpm⟩ := List.mem_filter.mp hmem
    unfold profileMatches at hpm
    rw [Bool.and_eq_true, decide_eq_true_eq] at hpm
    obtain ⟨huid, hfn⟩ := hpm
    refine ⟨r, rfl, hmem_t, huid, ?_, by unfold get_profile; rw [h]⟩
    rcases hf : r.full_name with _ | fn
    · rw [hf] at hfn; exact absurd hfn (by simp)
    · rw [hf] at hfn
      exact ⟨fn, rfl, (ilike_substring fn name hw).mp hfn⟩

/-- C7 witness: the amended theorem at the two-row table. -/
theorem get_profile_first_match_witness :
    (∃ r, profileQuery "u" "smith" [rowBob, rowAlice] = some r ∧
        r ∈ [rowBob, rowAlice] ∧ r.user_id = "u" ∧
        (∃ fn, r.full_name = some fn ∧ containsCI fn "smith") ∧
        get_profile "u" "smith" [rowBob, rowAlice] = dumpJsonInd 0 (profileObj r)) ∨
    ((∀ r ∈ [rowBob, rowAlice], profileMatches "u" "smith" r = false) ∧
      get_profile "u" "smith" [rowBob, rowAlice] = profileNotFound "smith") :=
  get_profile_first_match "u" "smith" [rowBob, rowAlice] (by decide)

/-! ## Round-trip lemmas for the delimited export (C9) -/

theorem string_mk_data (s : String) : String.mk s.data = s := by
  cases s
  rfl

theorem csvUnDouble_roundtrip (cs : List Char) :
    csvUnDouble (csvDoubleL cs ++ '"' :: []) = cs := by
  induction cs with
  | nil => rfl
  | cons c rest ih =>
    by_cases hc : c = '"'
    · subst hc
      simp only [csvDoubleL, if_pos rfl]
      show '"' :: csvUnDouble (csvDoubleL rest ++ '"' :: []) = _
      rw [ih]
    · simp only [csvDoubleL, if_neg hc, List.cons_append]
      rw [csvUnDouble.eq_def]
      simp only [if_neg hc]
      rw [ih]

theorem csvRead_csvCell (s : String) : csvReadCell (csvCell s) = s := by
  by_cases hq : csvNeedsQuote s
  · rw [csvCell, if_pos hq]
    show String.mk (csvUnDouble (csvDoubleL s.data ++ '"' :: [])) = s
    rw [csvUnDouble_roundtrip, string_mk_data]
  · rw [csvCell, if_neg hq]
    unfold csvReadCell
    rcases hd : s.data with _ | ⟨c, rest⟩
    · rfl
    · have hc : ¬c = '"' := by
        intro hcq
        apply hq
        unfold csvNeedsQuote
        rw [hd, List.any_cons, hcq]
        simp
      show (if c = '"' then String.mk (csvUnDouble rest) else s) = s
      rw [if_neg hc]

set_option maxHeartbeats 2000000 in
theorem parseStrBody_cons_plain (c : Char) (rest : List Char)
    (h1 : ¬c = '"') (h2 : ¬c = '\\') :
    parseStrBody (c :: rest) = (parseStrBody rest).map fun p => (c :: p.1, p.2) := by
  apply parseStrBody.eq_13 <;> intros <;> simp_all

set_option maxHeartbeats 2000000 in
theorem parseStrBody_escape (v : List Char) (rest : List Char) :
    parseStrBody (escapeJson v ++ '"' :: rest) = some (v, rest) := by
  induction v with
  | nil =>
    rw [show escapeJson [] = [] from rfl, List.nil_append]
    simp only [parseStrBody]
  | cons c v' ih =>
    rw [show escapeJson (c :: v') = escapeJsonChar c ++ escapeJson v' from by
      simp [escapeJson, List.flatMap_cons], List.append_assoc]
    by_cases h1 : c = '"'
    · subst h1
      rw [show escapeJsonChar '"' = ['\\', '"'] from rfl]
      rw [show (['\\', '"'] : List Char) ++ (escapeJson v' ++ '"' :: rest) =
          '\\' :: '"' :: (escapeJson v' ++ '"' :: rest) from rfl]
      simp only [parseStrBody]
      rw [ih]
      rfl
    · by_cases h2 : c = '\\'
      · subst h2
        rw [show escapeJsonChar '\\' = ['\\', '\\'] from rfl]
        rw [show (['\\', '\\'] : List Char) ++ (escapeJson v' ++ '"' :: rest) =
            '\\' :: '\\' :: (escapeJson v' ++ '"' :: rest) from rfl]
        simp only [parseStrBody]
        rw [ih]
        rfl
      · by_cases h3 : c = '\n'
        · subst h3
          rw [show escapeJsonChar '\n' = ['\\', 'n'] from rfl]
          rw [show (['\\', 'n'] : List Char) ++ (escapeJson v' ++ '"' :: rest) =
              '\\' :: 'n' :: (escapeJson v' ++ '"' :: rest) from rfl]
          simp only [parseStrBody]
          rw [ih]
          rfl
        · by_cases h4 : c = '\t'
          · subst h4
            rw [show escapeJsonChar '\t' = ['\\', 't'] from rfl]
            rw [show (['\\', 't'] : List Char) ++ (escapeJson v' ++ '"' :: rest) =
                '\\' :: 't' :: (escapeJson v' ++ '"' :: rest) from rfl]
            simp only [parseStrBody]
            rw [ih]
            rfl
          · by_cases h5 : c = '\r'
            · subst h5
              rw [show escapeJsonChar '\r' = ['\\', 'r'] from rfl]
              rw [show (['\\', 'r'] : List Char) ++ (escapeJson v' ++ '"' :: rest) =
                  '\\' :: 'r' :: (escapeJson v' ++ '"' :: rest) from rfl]
              simp only [parseStrBody]
              rw [ih]
              rfl
            · have he : escapeJsonChar c = [c] := by
                unfold escapeJsonChar
                rw [if_neg h1, if_neg h2, if_neg h3, if_neg h4, if_neg h5]
              rw [he]
              rw [show ([c] : List Char) ++ (escapeJson v' ++ '"' :: rest) =
                  c :: (escapeJson v' ++ '"' :: rest) from rfl]
              rw [parseStrBody_cons_plain c _ h1 h2, ih]
              rfl

theorem json_loads_dumpString (v : String) :
    json_loads (dumpString v) = some (.str v) := by
  unfold json_loads
  rw [show (dumpString v).data = '"' :: (escapeJson v.data ++ '"' :: []) from rfl]
  rw [show parseValue (3 * (dumpString v).length + 3)
        ('"' :: (escapeJson v.data ++ '"' :: [])) =
      (parseStrBody (escapeJson v.data ++ '"' :: [])).map
        (fun p => (Json.str (String.mk p.1), p.2)) from rfl]
  rw [parseStrBody_escape]
  simp [string_mk_data, skipWs]

/-- The elements of a decoded list-valued field (defined only for arrays). -/
def jsonElements (j : Json) : Option (List Json) :=
  match j with
  | .arr xs => some xs
  | _ => none

/-- C9 counterexample: the CSV exporter serializes a stored JSON-array
text with `json.dumps(value)`, and the stored value is already a string —
so the cell is double-encoded.  Re-importing the cell and JSON-decoding
it once yields a JSON string (the original stored text), not an array:
the decoded value has no element set, while the original stored value
decodes to the two-element array. -/
theorem csv_export_double_encodes :
    canonicalField (some "[\"ai\", \"founder\"]") =
      "\"[\\\"ai\\\", \\\"founder\\\"]\"" ∧
    json_loads (csvReadCell (csvCell (canonicalField (some "[\"ai\", \"founder\"]")))) =
      some (.str "[\"ai\", \"founder\"]") ∧
    json_loads "[\"ai\", \"founder\"]" = some (.arr [.str "ai", .str "founder"]) ∧
    ((json_loads (csvReadCell (csvCell
        (canonicalField (some "[\"ai\", \"founder\"]"))))).bind jsonElements) = none ∧
    ((json_loads "[\"ai\", \"founder\"]").bind jsonElements) =
      some [.str "ai", .str "founder"] :=
  ⟨rfl, rfl, rfl, rfl, rfl⟩

/-- C9 amended: the delimited round trip preserves the stored field at
the raw-text level, one JSON-decoding level up from the claim: decoding
the re-imported cell once yields exactly the originally stored text, so
the original JSON-decoded elements are recovered only by decoding twice;
set-equality after a single decode fails (the single decode yields a
string, not a list). -/
theorem csv_roundtrip_preserves_text (v : String) (hv : v ≠ "") :
    csvReadCell (csvCell (canonicalField (some v))) = dumpJson (.str v) ∧
    json_loads (csvReadCell (csvCell (canonicalField (some v)))) = some (.str v) ∧
    (∀ xs : List Json, json_loads v = some (.arr xs) →
      ((json_loads (csvReadCell (csvCell (canonicalField (some v))))).bind
        (fun j => match j with | .str s => json_loads s | _ => none)) =
        some (.arr xs)) := by
  have h1 : canonicalField (some v) = dumpJson (.str v) := by
    simp [canonicalField, hv]
  have h2 : csvReadCell (csvCell (canonicalField (some v))) = dumpJson (.str v) := by
    rw [h1, csvRead_csvCell]
  have h3 : json_loads (csvReadCell (csvCell (canonicalField (some v)))) =
      some (.str v) := by
    rw [h2]
    exact json_loads_dumpString v
  refine ⟨h2, h3, ?_⟩
  intro xs hxs
  rw [h3]
  simpa using hxs

/-- C9 witness: the round-trip theorem at a stored JSON-array text. -/
theorem csv_roundtrip_preserves_text_witness :
    csvReadCell (csvCell (canonicalField (some "[\"go\"]"))) =
      dumpJson (.str "[\"go\"]") ∧
    json_loads (csvReadCell (csvCell (canonicalField (some "[\"go\"]")))) =
      some (.str "[\"go\"]") ∧
    (∀ xs : List Json, json_loads "[\"go\"]" = some (.arr xs) →
      ((json_loads (csvReadCell (csvCell (canonicalField (some "[\"go\"]"))))).bind
        (fun j => match j with | .str s => json_loads s | _ => none)) =
        some (.arr xs)) :=
  csv_roundtrip_preserves_text "[\"go\"]" (by decide)

/-! ## The export artifact path and `run_export` (C10) -/

theorem pyPathJoin_ne_data_network (cwd : String) :
    pyPathJoin cwd exportFilename ≠ "data/network.csv" := by
  unfold pyPathJoin exportFilename
  by_cases h0 : cwd = ""
  · simp only [h0, if_pos rfl]
    decide
  · rw [if_neg h0]
    by_cases h1 : pyEndsWith cwd "/"
    · rw [if_pos h1]
      intro h
      have hl := congrArg List.length (congrArg String.data h)
      rw [String.data_append, List.length_append] at hl
      rw [show ("linkedin_network_export.csv".data).length = 27 from rfl,
        show ("data/network.csv".data).length = 16 from rfl] at hl
      omega
    · rw [if_neg h1]
      intro h
      have hl := congrArg List.length (congrArg String.data h)
      rw [String.data_append, String.data_append, List.length_append,
        List.length_append] at hl
      rw [show ("linkedin_network_export.csv".data).length = 27 from rfl,
        show ("/".data).length = 1 from rfl,
        show ("data/network.csv".data).length = 16 from rfl] at hl
      omega

theorem run_export_on_success (rows : List Row) (cwd : String) (files : List String) :
    run_export (csvSuccessPayload rows cwd) files =
      if files.contains "data/network.csv" then 0 else 3 := rfl

/-- C10: whenever `export_network_csv` succeeds, the artifact goes to the
one fixed path `os.path.join(cwd, "linkedin_network_export.csv")` (also
reported in the payload) and nowhere else; `run_export` inspects the
unrelated fixed path `"data/network.csv"`, which the export never writes,
so it exits 3 unless a file independently exists there (and 0 when one
does). -/
theorem export_writes_fixed_path_only (rows : List Row) (cwd uid : String)
    (pre : List String) (hrows : rows ≠ []) :
    export_network_csvE (.ok uid) (.ok rows) cwd =
      .ok (dumpJsonInd 0 (csvSuccessPayload rows cwd),
        [(pyPathJoin cwd exportFilename, csv_content rows)]) ∧
    jsonObjGet (csvSuccessPayload rows cwd) "status" = some (.str "success") ∧
    jsonObjGet (csvSuccessPayload rows cwd) "filepath" =
      some (.str (pyPathJoin cwd exportFilename)) ∧
    pyPathJoin cwd exportFilename ≠ "data/network.csv" ∧
    (pre.contains "data/network.csv" = false →
      run_export (csvSuccessPayload rows cwd)
        (pyPathJoin cwd exportFilename :: pre) = 3) ∧
    (pre.contains "data/network.csv" = true →
      run_export (csvSuccessPayload rows cwd)
        (pyPathJoin cwd exportFilename :: pre) = 0) := by
  have hne : rows.isEmpty = false := by
    cases rows with
    | nil => exact absurd rfl hrows
    | cons a l => rfl
  have hb : (("data/network.csv" : String) == pyPathJoin cwd exportFilename) = false :=
    beq_eq_false_iff_ne.mpr (Ne.symm (pyPathJoin_ne_data_network cwd))
  refine ⟨?_, rfl, rfl, pyPathJoin_ne_data_network cwd, ?_, ?_⟩
  · have hstep : export_network_csvE (.ok uid) (.ok rows) cwd =
        .ok (dumpJsonInd 0 (export_network_csv_run rows cwd).1,
          (export_network_csv_run rows cwd).2) := rfl
    rw [hstep]
    have hrun : export_network_csv_run rows cwd =
        (csvSuccessPayload rows cwd,
          [(pyPathJoin cwd exportFilename, csv_content rows)]) := by
      unfold export_network_csv_run
      simp [hne]
    rw [hrun]
  · intro hpre
    rw [run_export_on_success]
    simp only [List.contains_cons, hb, hpre, Bool.false_or, if_neg]
    simp
  · intro hpre
    rw [run_export_on_success]
    simp
    intro _
    simpa using hpre

/-- C10 witness: one row, a root working directory, empty and seeded
filesystems. -/
theorem export_writes_fixed_path_only_witness :
    export_network_csvE (.ok "t1") (.ok [rowBob]) "/app" =
      .ok (dumpJsonInd 0 (csvSuccessPayload [rowBob] "/app"),
        [(pyPathJoin "/app" exportFilename, csv_content [rowBob])]) ∧
    jsonObjGet (csvSuccessPayload [rowBob] "/app") "status" = some (.str "success") ∧
    jsonObjGet (csvSuccessPayload [rowBob] "/app") "filepath" =
      some (.str (pyPathJoin "/app" exportFilename)) ∧
    pyPathJoin "/app" exportFilename ≠ "data/network.csv" ∧
    (([] : List String).contains "data/network.csv" = false →
      run_export (csvSuccessPayload [rowBob] "/app")
        (pyPathJoin "/app" exportFilename :: []) = 3) ∧
    (([] : List String).contains "data/network.csv" = true →
      run_export (csvSuccessPayload [rowBob] "/app")
        (pyPathJoin "/app" exportFilename :: []) = 0) :=
  export_writes_fixed_path_only [rowBob] "/app" "t1" [] (by simp)

/-! ## Credential isolation across interleaved calls (C1) -/

theorem execTrace_projA (env : Option String) (tr : List (CallId × Act)) :
    ∀ s : CtxState,
      ((execTrace env s tr).ctxA, (execTrace env s tr).savedA,
        (execTrace env s tr).obsA) =
      List.foldl (ctxStepCall env) (s.ctxA, s.savedA, s.obsA)
        ((tr.filter isCallA).map Prod.snd) := by
  induction tr with
  | nil => intro s; rfl
  | cons x rest ih =>
    intro s
    obtain ⟨cid, a⟩ := x
    have hstep : execTrace env s ((cid, a) :: rest) =
        execTrace env (ctxStep env s (cid, a)) rest := rfl
    cases cid
    · have hfil : ((CallId.ca, a) :: rest).filter isCallA =
          (CallId.ca, a) :: rest.filter isCallA := by
        simp [isCallA]
      rw [hstep, hfil, List.map_cons, List.foldl_cons, ih]
      have hproj : ((ctxStep env s (CallId.ca, a)).ctxA,
          (ctxStep env s (CallId.ca, a)).savedA,
          (ctxStep env s (CallId.ca, a)).obsA) =
          ctxStepCall env (s.ctxA, s.savedA, s.obsA) a := by
        cases a <;> rfl
      rw [hproj]
    · have hfil : ((CallId.cb, a) :: rest).filter isCallA =
          rest.filter isCallA := by
        simp [isCallA]
      rw [hstep, hfil, ih]
      have hproj : ((ctxStep env s (CallId.cb, a)).ctxA,
          (ctxStep env s (CallId.cb, a)).savedA,
          (ctxStep env s (CallId.cb, a)).obsA) =
          (s.ctxA, s.savedA, s.obsA) := by
        cases a <;> rfl
      rw [hproj]

theorem execTrace_projB (env : Option String) (tr : List (CallId × Act)) :
    ∀ s : CtxState,
      ((execTrace env s tr).ctxB, (execTrace env s tr).savedB,
        (execTrace env s tr).obsB) =
      List.foldl (ctxStepCall env) (s.ctxB, s.savedB, s.obsB)
        ((tr.filter isCallB).map Prod.snd) := by
  induction tr with
  | nil => intro s; rfl
  | cons x rest ih =>
    intro s
    obtain ⟨cid, a⟩ := x
    have hstep : execTrace env s ((cid, a) :: rest) =
        execTrace env (ctxStep env s (cid, a)) rest := rfl
    cases cid
    · have hfil : ((CallId.ca, a) :: rest).filter isCallB =
          rest.filter isCallB := by
        simp [isCallB]
      rw [hstep, hfil, ih]
      have hproj : ((ctxStep env s (CallId.ca, a)).ctxB,
          (ctxStep env s (CallId.ca, a)).savedB,
          (ctxStep env s (CallId.ca, a)).obsB) =
          (s.ctxB, s.savedB, s.obsB) := by
        cases a <;> rfl
      rw [hproj]
    · have hfil : ((CallId.cb, a) :: rest).filter isCallB =
          (CallId.cb, a) :: rest.filter isCallB := by
        simp [isCallB]
      rw [hstep, hfil, List.map_cons, List.foldl_cons, ih]
      have hproj : ((ctxStep env s (CallId.cb, a)).ctxB,
          (ctxStep env s (CallId.cb, a)).savedB,
          (ctxStep env s (CallId.cb, a)).obsB) =
          ctxStepCall env (s.ctxB, s.savedB, s.obsB) a := by
        cases a <;> rfl
      rw [hproj]

theorem foldl_callProg (env key : Option String) :
    List.foldl (ctxStepCall env) (none, none, []) [Act.vset key, Act.vget, Act.vreset] =
      (none, none, [get_user_id key env]) := rfl

/-- C1: two concurrently in-flight calls whose headers carry distinct
non-empty credentials each observe only their own credential in
`get_user_id`, under every interleaving of their set/get/reset steps —
the `ContextVar` slot is per-call state, so neither call's steps touch
the other's slot. -/
theorem credential_isolation (hA hB : List (String × String))
    (env : Option String) (a b : String) (tr : List (CallId × Act))
    (hkA : extract_api_key hA = some a) (haNE : a ≠ "")
    (hkB : extract_api_key hB = some b) (hbNE : b ≠ "")
    (hAB : a ≠ b)
    (htrA : (tr.filter isCallA).map Prod.snd = callProg hA)
    (htrB : (tr.filter isCallB).map Prod.snd = callProg hB) :
    (execTrace env initCtx tr).obsA = [Except.ok a] ∧
    (execTrace env initCtx tr).obsB = [Except.ok b] ∧
    Except.ok b ∉ (execTrace env initCtx tr).obsA ∧
    Except.ok a ∉ (execTrace env initCtx tr).obsB := by
  have hgA : get_user_id (some a) env = .ok a := by
    simp [get_user_id, pyOrO, haNE]
  have hgB : get_user_id (some b) env = .ok b := by
    simp [get_user_id, pyOrO, hbNE]
  have hinit : (initCtx.ctxA, initCtx.savedA, initCtx.obsA) =
      ((none : Option String), (none : Option String),
        ([] : List (Except String String))) := rfl
  have hinitB : (initCtx.ctxB, initCtx.savedB, initCtx.obsB) =
      ((none : Option String), (none : Option String),
        ([] : List (Except String String))) := rfl
  have pA := execTrace_projA env tr initCtx
  rw [htrA] at pA
  unfold callProg at pA
  rw [hkA, hinit, foldl_callProg] at pA
  have pB := execTrace_projB env tr initCtx
  rw [htrB] at pB
  unfold callProg at pB
  rw [hkB, hinitB, foldl_callProg] at pB
  have hobsA : (execTrace env initCtx tr).obsA = [get_user_id (some a) env] :=
    congrArg (fun t => t.2.2) pA
  have hobsB : (execTrace env initCtx tr).obsB = [get_user_id (some b) env] :=
    congrArg (fun t => t.2.2) pB
  rw [hgA] at hobsA
  rw [hgB] at hobsB
  refine ⟨hobsA, hobsB, ?_, ?_⟩
  · rw [hobsA]
    simp [hAB.symm]
  · rw [hobsB]
    simp [hAB]

/-- C1 witness: one concrete interleaving of two calls, one credential
from an `x-api-key` header and one from a bearer `authorization` header. -/
theorem credential_isolation_witness :
    (execTrace none initCtx
      [(CallId.ca, Act.vset (some "tenant-a")),
       (CallId.cb, Act.vset (some "tenant-b")),
       (CallId.ca, Act.vget), (CallId.cb, Act.vget),
       (CallId.cb, Act.vreset), (CallId.ca, Act.vreset)]).obsA =
      [Except.ok "tenant-a"] ∧
    (execTrace none initCtx
      [(CallId.ca, Act.vset (some "tenant-a")),
       (CallId.cb, Act.vset (some "tenant-b")),
       (CallId.ca, Act.vget), (CallId.cb, Act.vget),
       (CallId.cb, Act.vreset), (CallId.ca, Act.vreset)]).obsB =
      [Except.ok "tenant-b"] ∧
    Except.ok "tenant-b" ∉ (execTrace none initCtx
      [(CallId.ca, Act.vset (some "tenant-a")),
       (CallId.cb, Act.vset (some "tenant-b")),
       (CallId.ca, Act.vget), (CallId.cb, Act.vget),
       (CallId.cb, Act.vreset), (CallId.ca, Act.vreset)]).obsA ∧
    Except.ok "tenant-a" ∉ (execTrace none initCtx
      [(CallId.ca, Act.vset (some "tenant-a")),
       (CallId.cb, Act.vset (some "tenant-b")),
       (CallId.ca, Act.vget), (CallId.cb, Act.vget),
       (CallId.cb, Act.vreset), (CallId.ca, Act.vreset)]).obsB :=
  credential_isolation [("x-api-key", "tenant-a")]
    [("Authorization", "Bearer tenant-b")] none "tenant-a" "tenant-b" _
    rfl (by decide) rfl (by decide) (by decide) rfl rfl
